import Mathlib

/-
  Verification development for the mma_word_embeddings repository
  (mma_word_embeddings/embedding.py).

  Modelling conventions:
  * Python floats are modelled as exact rationals; numeric claims are read
    over exact arithmetic.
  * numpy square roots occur only inside np.std and vector normalization.
    Aggregated tables therefore carry the radicand (the squared value);
    statements about a reported standard deviation apply Real.sqrt to it.
  * Exceptions are modelled with Except PyError; a raised exception is the
    error value, and Python evaluation order (first raise wins) is preserved
    by the matching structure of each definition.
  * pandas DataFrames are modelled as the lists of rows from which the source
    builds them; trailing sort_values calls only permute whole rows and are
    not part of the claims below, which concern cell values and raised
    errors.
-/

/-- Exception kinds raised by the Python code in embedding.py. -/
inductive PyError
  | valueError
  | keyError
  | indexError
  | attributeError
  | embeddingError
deriving DecidableEq, Repr

/-- A word vector: Python float arrays are modelled as lists of rationals. -/
abbrev Vec := List ℚ

/-- Componentwise sum of squares of a vector. -/
def sumsq (v : Vec) : ℚ := (v.map (fun x => x * x)).sum

/-- Componentwise difference of two vectors (numpy broadcasting of `-`). -/
def vecSub (a b : Vec) : Vec := List.zipWith (fun x y => x - y) a b

/-- Componentwise sum of two vectors. -/
def vecAdd (a b : Vec) : Vec := List.zipWith (fun x y => x + y) a b

/-- Dot product of two vectors (np.dot). -/
def dot (a b : Vec) : ℚ := (List.zipWith (fun x y => x * y) a b).sum

/-- Componentwise mean of a stack of vectors, np.mean(..., axis=0).  np.mean
of an empty stack is NaN with a RuntimeWarning; that case is represented by
the empty vector and is never reached in this development. -/
def vecMean : List Vec → Vec
  | [] => []
  | v :: vs => (vs.foldl vecAdd v).map (fun x => x / (vs.length + 1))

/-- Largest k at most the fuel bound with k*k at most n (structural integer
square root, kernel-reducible unlike Nat.sqrt). -/
def isqrtAux (n : ℕ) : ℕ → ℕ
  | 0 => 0
  | k + 1 => if (k + 1) * (k + 1) ≤ n then k + 1 else isqrtAux n k

/-- Integer square root by bounded descent. -/
def isqrt (n : ℕ) : ℕ := isqrtAux n n

/-- Modelled from the spec: the square-root step of unit Euclidean
normalization (utils.normalize_vector and np.linalg.norm are not under src/).
Over ℚ this is the exact square root whenever the argument is a perfect
square of a rational, which is the case for every vector norm exercised in
this development (all concrete vectors are unit vectors); on other inputs the
model returns a floor approximation and is not relied upon. -/
def ratSqrt (q : ℚ) : ℚ := (isqrt q.num.toNat : ℚ) / (isqrt q.den : ℚ)

/-- Modelled from the spec: utils.normalize_vector, absent from src/ — scale
a vector to unit Euclidean length (spec section 3: "Normalization (unit
Euclidean length)").  Division by the norm is exact here because every
concrete vector in this development already has norm 1. -/
def normalize_vector (v : Vec) : Vec :=
  v.map (fun x => x / ratSqrt (sumsq v))

/-- Effectful map over a list in the Except monad, written out structurally:
the Python for-loop that lets the first raised exception escape. -/
def mapE (f : α → Except PyError β) : List α → Except PyError (List β)
  | [] => .ok []
  | a :: as =>
    match f a with
    | .error e => .error e
    | .ok b =>
      match mapE f as with
      | .error e => .error e
      | .ok bs => .ok (b :: bs)

/-- The empty string (named to keep string literals inside brackets). -/
def nostr : String := ""

/-- A single space, the join separator used by context_in_training_data. -/
def spaceSep : String := " "

/-- WordEmbedding: the vocabulary→vector map loaded from a KeyedVectors file,
plus the optional tokenized training corpus (embedding.py line 34). -/
structure WordEmbedding where
  word_vectors : List (String × Vec)
  training_data : Option (List (List String))
deriving DecidableEq, Repr

/-- Raw vector lookup in the KeyedVectors store (self._word_vectors[word]). -/
def WordEmbedding.lookup (E : WordEmbedding) (word : String) : Option Vec :=
  (E.word_vectors.find? (fun p => p.1 == word)).map (fun p => p.2)

/-- WordEmbedding.in_vocab (line 81): whether word is in the vocabulary. -/
def WordEmbedding.in_vocab (E : WordEmbedding) (word : String) : Bool :=
  (E.lookup word).isSome

/-- WordEmbedding.vector (line 224): the unit-normalized vector of a word; a
word outside the vocabulary raises KeyError inside the KeyedVectors store. -/
def WordEmbedding.vector (E : WordEmbedding) (word : String) : Except PyError Vec :=
  match E.lookup word with
  | none => .error .keyError
  | some v => .ok (normalize_vector v)

/-- Total companion of WordEmbedding.vector, used on words already known to
be in the vocabulary. -/
def WordEmbedding.vectorD (E : WordEmbedding) (word : String) : Vec :=
  normalize_vector ((E.lookup word).getD [])

/-- Absolute tolerance passed to np.allclose in difference_vector. -/
def atol : ℚ := 1 / 10000000000

/-- Relative tolerance of np.allclose, left at the numpy default 1e-05. -/
def rtol : ℚ := 1 / 100000

/-- np.allclose(a, b, atol=1e-10): elementwise |a_i - b_i| ≤ atol + rtol*|b_i|
with the numpy default relative tolerance. -/
def npAllclose (a b : Vec) : Bool :=
  (a.length == b.length) &&
    (a.zip b).all (fun p => decide (|p.1 - p.2| ≤ atol + rtol * |p.2|))

/-- WordEmbedding.difference_vector (lines 233-252): vector(word1) -
vector(word2), raising ValueError when np.allclose finds the two normalized
vectors indistinguishable; the optional flag renormalizes the difference. -/
def WordEmbedding.difference_vector (E : WordEmbedding) (word1 word2 : String)
    (normalize : Bool) : Except PyError Vec :=
  match E.vector word1 with
  | .error e => .error e
  | .ok vec1 =>
    match E.vector word2 with
    | .error e => .error e
    | .ok vec2 =>
      if npAllclose vec1 vec2 then .error .valueError
      else
        let diff := vecSub vec1 vec2
        .ok (if normalize then normalize_vector diff else diff)

/-- WordEmbedding.centroid_of_vectors (lines 267-275): mean of the word
vectors, optionally normalized. -/
def WordEmbedding.centroid_of_vectors (E : WordEmbedding) (list_of_words : List String)
    (normalize : Bool) : Except PyError Vec :=
  match mapE E.vector list_of_words with
  | .error e => .error e
  | .ok vecs =>
    let centroid := vecMean vecs
    .ok (if normalize then normalize_vector centroid else centroid)

/-- Total companion of centroid_of_vectors for words known to be in vocab. -/
def WordEmbedding.centroidD (E : WordEmbedding) (list_of_words : List String) : Vec :=
  vecMean (list_of_words.map E.vectorD)

/-- WordEmbedding.similarity (lines 315-317): dot product of the two
normalized vectors. -/
def WordEmbedding.similarity (E : WordEmbedding) (word1 word2 : String) :
    Except PyError ℚ :=
  match E.vector word1 with
  | .error e => .error e
  | .ok v1 =>
    match E.vector word2 with
    | .error e => .error e
    | .ok v2 => .ok (dot v1 v2)

/-- Python round-half-to-even on the integer grid (the builtin round applied
after scaling; examples here never hit float-representation artefacts). -/
def pyRoundHalfEven (x : ℚ) : ℤ :=
  let f := ⌊x⌋
  if x - f < 1 / 2 then f
  else if 1 / 2 < x - f then f + 1
  else if f % 2 = 0 then f else f + 1

/-- round(x, 3) from similarities (line 321). -/
def pyRound3 (x : ℚ) : ℚ := (pyRoundHalfEven (x * 1000) : ℚ) / 1000

/-- Stable insertion of an element into a sorted list, front placement when
le x y holds. -/
def insertIn (le : α → α → Bool) (x : α) : List α → List α
  | [] => [x]
  | y :: ys => if le x y then x :: y :: ys else y :: insertIn le x ys

/-- Stable insertion sort used to model pandas sort_values on the concrete
inputs of this development (whose sort keys are distinct, so any sorting
algorithm produces the same row order). -/
def insertionSortBy (le : α → α → Bool) : List α → List α
  | [] => []
  | x :: xs => insertIn le x (insertionSortBy le xs)

/-- WordEmbedding.similarities (lines 319-324): one row (word1, word2,
rounded similarity) per pair, sorted ascending by similarity. -/
def WordEmbedding.similarities (E : WordEmbedding)
    (list_of_word_pairs : List (String × String)) :
    Except PyError (List (String × String × ℚ)) :=
  match mapE (fun p => match E.similarity p.1 p.2 with
      | .error e => (.error e : Except PyError (String × String × ℚ))
      | .ok s => .ok (p.1, p.2, pyRound3 s)) list_of_word_pairs with
  | .error e => .error e
  | .ok rows => .ok (insertionSortBy (fun r1 r2 => decide (r1.2.2 ≤ r2.2.2)) rows)

/-- WordEmbedding.frequency_in_training_data (lines 142-155): count of exact
token occurrences over all corpus sentences; ValueError when no corpus was
attached.  No vocabulary lookup is involved. -/
def WordEmbedding.frequency_in_training_data (E : WordEmbedding) (word : String) :
    Except PyError ℕ :=
  match E.training_data with
  | none => .error .valueError
  | some td => .ok ((td.map (fun document => (document.filter (fun w => w == word)).length)).sum)

/-- WordEmbedding.context_in_training_data (lines 122-140): for each
occurrence of the word, the sentence tokens from index idx-n (clipped at 0 by
the source branch, here by truncated ℕ subtraction) through index
min(len-1, idx+n), joined by single spaces. -/
def WordEmbedding.context_in_training_data (E : WordEmbedding) (word : String)
    (n : ℕ) : Except PyError (List String) :=
  match E.training_data with
  | none => .error .valueError
  | some td => .ok (td.flatMap (fun sentence =>
      (sentence.enum.filter (fun p => p.2 == word)).map (fun p =>
        let idx := p.1
        let start := if idx < n then 0 else idx - n
        let stop := if sentence.length - 1 < idx + n then sentence.length - 1 else idx + n
        String.intercalate spaceSep ((sentence.drop start).take (stop + 1 - start)))))

/-- WordEmbedding.sort_by_frequency_in_training_data (lines 157-163): pair
each given word with its corpus frequency and sort descending by frequency. -/
def WordEmbedding.sort_by_frequency_in_training_data (E : WordEmbedding)
    (list_of_words : List String) : Except PyError (List (String × ℕ)) :=
  match mapE E.frequency_in_training_data list_of_words with
  | .error e => .error e
  | .ok freqs =>
    .ok (insertionSortBy (fun a b => decide (b.2 ≤ a.2)) (list_of_words.zip freqs))

/-- Counter(flat_training_data) of line 182: counts in first-encounter
(dict insertion) order, exactly the order the DataFrame rows inherit. -/
def bumpCount (acc : List (String × ℕ)) (t : String) : List (String × ℕ) :=
  if acc.any (fun p => p.1 == t) then
    acc.map (fun p => if p.1 == t then (p.1, p.2 + 1) else p)
  else acc ++ [(t, 1)]

/-- Token counts of a flattened corpus in first-encounter order. -/
def counterInsertionOrder (tokens : List String) : List (String × ℕ) :=
  tokens.foldl bumpCount []

/-- WordEmbedding.vocab_sorted_by_frequency_in_training_data (lines 165-189):
Counter rows in insertion order (the source never sorts them), truncated by
head(first_n) and then filtered to frequency strictly above
more_frequent_than; a threshold of 0 is replaced by None (no filter). -/
def WordEmbedding.vocab_sorted_by_frequency_in_training_data (E : WordEmbedding)
    (first_n : Option ℕ) (more_frequent_than : Option ℕ) :
    Except PyError (List (String × ℕ)) :=
  match E.training_data with
  | none => .error .valueError
  | some td =>
    let mft := if more_frequent_than = some 0 then none else more_frequent_than
    let res := counterInsertionOrder td.flatten
    let res := match first_n with
      | none => res
      | some n => res.take n
    let res := match mft with
      | none => res
      | some th => res.filter (fun p => decide (th < p.2))
    .ok res

/-- WordEmbedding.projections_to_bipolar_dimensions (lines 448-510): per test
word and per dimension, dot(test_vec, centroid_left - centroid_right), with a
ValueError when a dimension is not specified by exactly two clusters.  Rows
of the resulting frame before the final sort_values. -/
def WordEmbedding.projections_to_bipolar_dimensions (E : WordEmbedding)
    (test : List String) (dimensions : List (String × List (List String)))
    (normalize_before normalize_centroids : Bool) :
    Except PyError (List (String × List ℚ)) :=
  mapE (fun test_word =>
    match E.vector test_word with
    | .error e => .error e
    | .ok test_vec =>
      match mapE (fun d =>
          if d.2.length ≠ 2 then (.error .valueError : Except PyError ℚ)
          else
            match E.centroid_of_vectors (d.2.getD 0 []) false with
            | .error e => .error e
            | .ok cL =>
              match E.centroid_of_vectors (d.2.getD 1 []) false with
              | .error e => .error e
              | .ok cR =>
                let cL := if normalize_centroids then normalize_vector cL else cL
                let cR := if normalize_centroids then normalize_vector cR else cR
                let diff := vecSub cL cR
                let diff := if normalize_before then normalize_vector diff else diff
                .ok (dot test_vec diff)) dimensions with
      | .error e => .error e
      | .ok cells => .ok (test_word, cells)) test

/-- EmbeddingEnsemble (line 764): an ordered list of independently loaded
embeddings. -/
structure EmbeddingEnsemble where
  list_of_embeddings : List WordEmbedding
deriving DecidableEq, Repr

/-- External world seen by the constructors: which paths hold a loadable
KeyedVectors file (None = loading raises), and what glob.glob returns for a
pattern.  Both are collaborators outside embedding.py. -/
structure LoadWorld where
  files : String → Option (List (String × Vec))
  globMatches : String → List String

/-- WordEmbedding.__init__ (lines 37-55) as used by the ensemble (no corpus
path): any loading failure is converted to EmbeddingError by the bare
except clause. -/
def loadWordEmbedding (w : LoadWorld) (path : String) : Except PyError WordEmbedding :=
  match w.files path with
  | none => .error .embeddingError
  | some kv => .ok ⟨kv, none⟩

/-- EmbeddingEnsemble.__init__ (lines 767-796): an explicit path list is used
as given; a glob pattern is expanded with a suffix and rejected when it
matches nothing; every path is then loaded, aborting on the first failure
(the try/except around each load re-raises, so no partial object escapes). -/
def EmbeddingEnsemble.init (w : LoadWorld) (path_to_embeddings : List String ⊕ String) :
    Except PyError EmbeddingEnsemble :=
  match path_to_embeddings with
  | .inl paths =>
    match mapE (loadWordEmbedding w) paths with
    | .error e => .error e
    | .ok embs => .ok ⟨embs⟩
  | .inr pattern =>
    let paths := w.globMatches (pattern ++ String.mk ['*', '.', 'e', 'm', 'b'])
    if paths.length = 0 then .error .embeddingError
    else
      match mapE (loadWordEmbedding w) paths with
      | .error e => .error e
      | .ok embs => .ok ⟨embs⟩

/-- Row of the wide ensemble similarity table just before line 833: the words
of the pair, the per-member rounded similarities, the MEAN cell, and the
radicand of the STD cell (pandas df.std squares under a square root). -/
structure WideSimRow where
  word1 : String
  word2 : String
  sims : List ℚ
  mean : ℚ
  stdSq : ℚ
deriving DecidableEq, Repr

/-- Arithmetic mean of a list of rationals (df.mean over the numeric
columns of a row). -/
def rowMean (xs : List ℚ) : ℚ := xs.sum / xs.length

/-- Radicand of pandas df.std with its default ddof=1 over a row: the sample
variance of the listed values.  pandas yields NaN for fewer than two values;
that case never arises below (the MEAN column is always present). -/
def pandasSampleVar (xs : List ℚ) : ℚ :=
  let m := rowMean xs
  (xs.map (fun x => (x - m) * (x - m))).sum / (xs.length - 1)

/-- pd.merge(base, df, on=[Word1, Word2]) of line 829 for one extra member
column: inner join keeping the left row order, appending the matching
similarity to each row's member-column list. -/
def mergeOnWords (base : List (String × String × List ℚ))
    (t : List (String × String × ℚ)) : List (String × String × List ℚ) :=
  base.flatMap (fun r =>
    (t.filter (fun r2 => r2.1 == r.1 && r2.2.1 == r.2.1)).map (fun r2 =>
      (r.1, r.2.1, r.2.2 ++ [r2.2.2])))

/-- Loop of lines 826-829: merge each remaining member's similarity table
into the accumulated base table, propagating the first raised exception. -/
def mergeRest (pairs : List (String × String)) :
    List (String × String × List ℚ) → List WordEmbedding →
      Except PyError (List (String × String × List ℚ))
  | acc, [] => .ok acc
  | acc, e :: es =>
    match e.similarities pairs with
    | .error err => .error err
    | .ok t => mergeRest pairs (mergeOnWords acc t) es

/-- The wide similarity table of EmbeddingEnsemble.similarities as it exists
after line 832 (member columns, MEAN, STD radicand), before the attribute
access of line 833. -/
def simTableWide (ens : EmbeddingEnsemble) (pairs : List (String × String)) :
    Except PyError (List WideSimRow) :=
  match ens.list_of_embeddings with
  | [] => .error .indexError
  | e0 :: rest =>
    match e0.similarities pairs with
    | .error e => .error e
    | .ok b0 =>
      let base := b0.map (fun r => (r.1, r.2.1, [r.2.2]))
      match mergeRest pairs base rest with
      | .error e => .error e
      | .ok merged =>
        .ok (merged.map (fun r =>
          let m := rowMean r.2.2
          ⟨r.1, r.2.1, r.2.2, m, pandasSampleVar (r.2.2 ++ [m])⟩))

/-- EmbeddingEnsemble.similarities (lines 822-836): builds the wide table,
then evaluates self.training_data — an attribute EmbeddingEnsemble.__init__
never sets — so every call that reaches line 833 raises AttributeError. -/
def EmbeddingEnsemble.similarities (ens : EmbeddingEnsemble)
    (pairs : List (String × String)) : Except PyError (List WideSimRow) :=
  match simTableWide ens pairs with
  | .error e => .error e
  | .ok _ => .error .attributeError

/-- Cluster word list filtered down to one member's vocabulary (the
in_vocab split of lines 861-865 / 883-887 / 984-988). -/
def usableCluster (E : WordEmbedding) (ws : List String) : List String :=
  ws.filter E.in_vocab

/-- Per-member processed clusters of one bipolar dimension (lines 855-901):
filter each of the two clusters to the member's vocabulary; the member is
skipped for this dimension (INFO notice, dict entry omitted) when either
filtered cluster is empty.  The left cluster is tested first, as in the
source. -/
def memberBipolarClusters (E : WordEmbedding) (clusters : List (List String)) :
    Option (List String × List String) :=
  let lin := usableCluster E (clusters.getD 0 [])
  if lin.isEmpty then none
  else
    let rin := usableCluster E (clusters.getD 1 [])
    if rin.isEmpty then none else some (lin, rin)

/-- Arity check of lines 850-851: the source condition is
len(dim_words) != 2 AND not (isinstance(dim_words[0], list) and
isinstance(dim_words[1], list)).  For list-typed clusters the isinstance
tests hold whenever the index exists, so the branch raises IndexError for
fewer than two clusters and silently accepts three or more; the ValueError
is unreachable on list-shaped input. -/
def bipolarArityCheck (clusters : List (List String)) : Except PyError Unit :=
  if clusters.length = 2 then .ok ()
  else if clusters.length < 2 then .error .indexError
  else .ok ()

/-- Processed per-member clusters of one dimension, positionally aligned
with the member list (the source keys a dict by member index). -/
def processBipolarDim (embs : List WordEmbedding) (clusters : List (List String)) :
    Except PyError (List (Option (List String × List String))) :=
  match bipolarArityCheck clusters with
  | .error e => .error e
  | .ok _ => .ok (embs.map (fun E => memberBipolarClusters E clusters))

/-- Loop of lines 847-901 over all dimensions. -/
def processAllBipolar (embs : List WordEmbedding) :
    List (String × List (List String)) →
      Except PyError (List (List (Option (List String × List String))))
  | [] => .ok []
  | d :: ds =>
    match processBipolarDim embs d.2 with
    | .error e => .error e
    | .ok p =>
      match processAllBipolar embs ds with
      | .error e => .error e
      | .ok ps => .ok (p :: ps)

/-- One member's projection for one bipolar dimension (lines 938-948):
dot(vector(test), centroid(left) - centroid(right)), the difference
optionally normalized; the ensemble path never normalizes the centroids. -/
def memberBipolarProjection (E : WordEmbedding) (test_word : String)
    (lr : List String × List String) (normalize_before : Bool) :
    Except PyError ℚ :=
  match E.vector test_word with
  | .error e => .error e
  | .ok test_vec =>
    match E.centroid_of_vectors lr.1 false with
    | .error e => .error e
    | .ok cL =>
      match E.centroid_of_vectors lr.2 false with
      | .error e => .error e
      | .ok cR =>
        let diff := vecSub cL cR
        let diff := if normalize_before then normalize_vector diff else diff
        .ok (dot test_vec diff)

/-- Inner loop of lines 934-948: walk the members in index order (the
processed-cluster list is positionally aligned), keeping members that have
the test word in vocabulary and a processed entry for this dimension. -/
def memberScores (test_word : String) (normalize_before : Bool) :
    List WordEmbedding → List (Option (List String × List String)) →
      Except PyError (List ℚ)
  | [], _ => .ok []
  | _ :: _, [] => .ok []
  | E :: Es, p :: ps =>
    if E.in_vocab test_word then
      match p with
      | none => memberScores test_word normalize_before Es ps
      | some lr =>
        match memberBipolarProjection E test_word lr normalize_before with
        | .error e => .error e
        | .ok r =>
          match memberScores test_word normalize_before Es ps with
          | .error e => .error e
          | .ok rs => .ok (r :: rs)
    else memberScores test_word normalize_before Es ps

/-- np.mean(results) and the radicand of np.std(results) (lines 950, 1049):
population statistics, ddof = 0.  none models the NaN pair numpy produces on
an empty result list (a RuntimeWarning, not an exception).  The reported
standard deviation is Real.sqrt of the second component. -/
def npMeanStd (xs : List ℚ) : Option (ℚ × ℚ) :=
  if xs.isEmpty then none
  else
    let m := rowMean xs
    some (m, (xs.map (fun x => (x - m) * (x - m))).sum / xs.length)

/-- Loop of lines 932-950 over the dimensions for one test word: each
dimension contributes a (MEAN, STD radicand) cell. -/
def dimCells (embs : List WordEmbedding) (test_word : String)
    (normalize_before : Bool) :
    List (List (Option (List String × List String))) →
      Except PyError (List (Option (ℚ × ℚ)))
  | [] => .ok []
  | p :: ps =>
    match memberScores test_word normalize_before embs p with
    | .error e => .error e
    | .ok scores =>
      match dimCells embs test_word normalize_before ps with
      | .error e => .error e
      | .ok cells => .ok (npMeanStd scores :: cells)

/-- Loop of lines 905-952 over the test words: a test word in no member's
vocabulary is dropped from the output (INFO notice, line 919). -/
def bipolarTestLoop (embs : List WordEmbedding)
    (processed : List (List (Option (List String × List String))))
    (normalize_before : Bool) :
    List String → Except PyError (List (String × List (Option (ℚ × ℚ))))
  | [] => .ok []
  | t :: ts =>
    if embs.any (fun E => E.in_vocab t) then
      match dimCells embs t normalize_before processed with
      | .error e => .error e
      | .ok cells =>
        match bipolarTestLoop embs processed normalize_before ts with
        | .error e => .error e
        | .ok rows => .ok ((t, cells) :: rows)
    else bipolarTestLoop embs processed normalize_before ts

/-- EmbeddingEnsemble.projections_to_bipolar_dimensions (lines 838-960):
rows of the resulting frame (before the final sort_values, which only
permutes rows). -/
def EmbeddingEnsemble.projections_to_bipolar_dimensions (ens : EmbeddingEnsemble)
    (test : List String) (dimensions : List (String × List (List String)))
    (normalize_before : Bool) :
    Except PyError (List (String × List (Option (ℚ × ℚ)))) :=
  match processAllBipolar ens.list_of_embeddings dimensions with
  | .error e => .error e
  | .ok processed =>
    bipolarTestLoop ens.list_of_embeddings processed normalize_before test

/-- The characters of a string as one-character strings: what the loop
`for dim_word in dim_words[0]` of line 984 actually iterates over, since
dim_words is the flat word list of a unipolar dimension and dim_words[0]
is its first word. -/
def charWords (s : String) : List String :=
  s.toList.map (fun c => String.mk [c])

/-- Per-member processed cluster of one unipolar dimension (lines 979-1003):
the source filters the CHARACTERS of the first cluster word against the
member's vocabulary, not the cluster's words; the member is skipped for this
dimension when no such character is a vocabulary word. -/
def memberUniCluster (E : WordEmbedding) (dim_words : List String) :
    Option (List String) :=
  let cin := (charWords dim_words.headI).filter E.in_vocab
  if cin.isEmpty then none else some cin

/-- Processing of one unipolar dimension across the members (lines 972-1003).
The shape check of line 974 always passes for a flat (typed) word list;
dim_words[0] raises IndexError on an empty list. -/
def processUnipolarDim (embs : List WordEmbedding) (dim_words : List String) :
    Except PyError (List (Option (List String))) :=
  if dim_words.isEmpty then .error .indexError
  else .ok (embs.map (fun E => memberUniCluster E dim_words))

/-- Loop of lines 971-1003 over all unipolar dimensions. -/
def processAllUnipolar (embs : List WordEmbedding) :
    List (String × List String) →
      Except PyError (List (List (Option (List String))))
  | [] => .ok []
  | d :: ds =>
    match processUnipolarDim embs d.2 with
    | .error e => .error e
    | .ok p =>
      match processAllUnipolar embs ds with
      | .error e => .error e
      | .ok ps => .ok (p :: ps)

/-- One member's projection for one unipolar dimension (lines 1040-1046):
dot(vector(test), centroid(processed cluster)), the centroid optionally
normalized. -/
def memberUniProjection (E : WordEmbedding) (test_word : String)
    (cluster : List String) (normalize_before : Bool) : Except PyError ℚ :=
  match E.vector test_word with
  | .error e => .error e
  | .ok test_vec =>
    match E.centroid_of_vectors cluster false with
    | .error e => .error e
    | .ok centroid =>
      let centroid := if normalize_before then normalize_vector centroid else centroid
      .ok (dot test_vec centroid)

/-- Inner loop of lines 1036-1047: walk the members in index order with the
positionally aligned processed clusters, keeping members that have the test
word in vocabulary and a processed entry for this dimension. -/
def memberUniScores (test_word : String) (normalize_before : Bool) :
    List WordEmbedding → List (Option (List String)) → Except PyError (List ℚ)
  | [], _ => .ok []
  | _ :: _, [] => .ok []
  | E :: Es, p :: ps =>
    if E.in_vocab test_word then
      match p with
      | none => memberUniScores test_word normalize_before Es ps
      | some c =>
        match memberUniProjection E test_word c normalize_before with
        | .error e => .error e
        | .ok r =>
          match memberUniScores test_word normalize_before Es ps with
          | .error e => .error e
          | .ok rs => .ok (r :: rs)
    else memberUniScores test_word normalize_before Es ps

/-- Loop of lines 1034-1049 over the dimensions for one test word: each
dimension contributes a (MEAN, STD radicand) cell, exactly as in the bipolar
path. -/
def uniDimCells (embs : List WordEmbedding) (test_word : String)
    (normalize_before : Bool) :
    List (List (Option (List String))) → Except PyError (List (Option (ℚ × ℚ)))
  | [] => .ok []
  | p :: ps =>
    match memberUniScores test_word normalize_before embs p with
    | .error e => .error e
    | .ok scores =>
      match uniDimCells embs test_word normalize_before ps with
      | .error e => .error e
      | .ok cells => .ok (npMeanStd scores :: cells)

/-- Loop of lines 1007-1051 over the test words: a test word in no member's
vocabulary is dropped (INFO notice, line 1021). -/
def unipolarTestLoop (embs : List WordEmbedding)
    (processed : List (List (Option (List String)))) (normalize_before : Bool) :
    List String → Except PyError (List (String × List (Option (ℚ × ℚ))))
  | [] => .ok []
  | t :: ts =>
    if embs.any (fun E => E.in_vocab t) then
      match uniDimCells embs t normalize_before processed with
      | .error e => .error e
      | .ok cells =>
        match unipolarTestLoop embs processed normalize_before ts with
        | .error e => .error e
        | .ok rows => .ok ((t, cells) :: rows)
    else unipolarTestLoop embs processed normalize_before ts

/-- EmbeddingEnsemble.projections_to_unipolar_dimensions (lines 962-1059):
rows of the resulting frame (before the final sort_values, which only
permutes rows). -/
def EmbeddingEnsemble.projections_to_unipolar_dimensions (ens : EmbeddingEnsemble)
    (test : List String) (dimensions : List (String × List String))
    (normalize_before : Bool) :
    Except PyError (List (String × List (Option (ℚ × ℚ)))) :=
  match processAllUnipolar ens.list_of_embeddings dimensions with
  | .error e => .error e
  | .ok processed =>
    unipolarTestLoop ens.list_of_embeddings processed normalize_before test

deriving instance DecidableEq for Except

/-- Claim-side companion for C4: indistinguishability within an absolute
tolerance of 1e-10 only, the condition the spec names. -/
def absClose (a b : Vec) : Bool :=
  (a.length == b.length) && (a.zip b).all (fun p => decide (|p.1 - p.2| ≤ atol))

/-- Claim-side companion for C2/C3: the sample variance, the square of the
sample standard deviation (ddof = 1). -/
def sampleVariance (xs : List ℚ) : ℚ :=
  let m := rowMean xs
  (xs.map (fun x => (x - m) * (x - m))).sum / (xs.length - 1)

/-- Claim-side companion for C2: a member contributes to a (test word,
bipolar dimension) aggregate when the test word is in its vocabulary and
both cluster word lists, filtered to its vocabulary, are nonempty. -/
def contributes (E : WordEmbedding) (test_word : String)
    (clusters : List (List String)) : Bool :=
  E.in_vocab test_word
    && !(usableCluster E (clusters.getD 0 [])).isEmpty
    && !(usableCluster E (clusters.getD 1 [])).isEmpty

/-- Claim-side companion for C2: one member's projection score in total
form, on the vocabulary-filtered clusters. -/
def memberProjectionVal (E : WordEmbedding) (test_word : String)
    (lr : List String × List String) (normalize_before : Bool) : ℚ :=
  let diff := vecSub (E.centroidD lr.1) (E.centroidD lr.2)
  dot (E.vectorD test_word) (if normalize_before then normalize_vector diff else diff)

/-- Claim-side companion for C2: the per-member projection scores that could
be computed for one (test word, dimension) pair, in member order. -/
def perMemberScores (embs : List WordEmbedding) (test_word : String)
    (clusters : List (List String)) (normalize_before : Bool) : List ℚ :=
  (embs.filter (fun E => contributes E test_word clusters)).map (fun E =>
    memberProjectionVal E test_word
      (usableCluster E (clusters.getD 0 []), usableCluster E (clusters.getD 1 []))
      normalize_before)

/-- Claim-side companion for C2 (unipolar): the usable word list the source
actually computes for one member — the characters of the first cluster word
that are themselves vocabulary words (the C1 behaviour; the aggregation of
line 1049 operates on whatever scores this processing left computable). -/
def uniUsable (E : WordEmbedding) (dim_words : List String) : List String :=
  (charWords dim_words.headI).filter E.in_vocab

/-- Claim-side companion for C2 (unipolar): a member contributes to a
(test word, dimension) aggregate when the test word is in its vocabulary and
its processed cluster is nonempty. -/
def uniContributes (E : WordEmbedding) (test_word : String)
    (dim_words : List String) : Bool :=
  E.in_vocab test_word && !(uniUsable E dim_words).isEmpty

/-- Claim-side companion for C2 (unipolar): one member's projection score in
total form, on that member's processed cluster. -/
def memberUniProjectionVal (E : WordEmbedding) (test_word : String)
    (cluster : List String) (normalize_before : Bool) : ℚ :=
  let c := E.centroidD cluster
  dot (E.vectorD test_word) (if normalize_before then normalize_vector c else c)

/-- Claim-side companion for C2 (unipolar): the per-member projection scores
that could be computed for one (test word, dimension) pair, in member
order. -/
def perMemberUniScores (embs : List WordEmbedding) (test_word : String)
    (dim_words : List String) (normalize_before : Bool) : List ℚ :=
  (embs.filter (fun E => uniContributes E test_word dim_words)).map (fun E =>
    memberUniProjectionVal E test_word (uniUsable E dim_words) normalize_before)

/-- Claim-side companion for C8/C10: total number of occurrences of a word
in a tokenized corpus. -/
def countOccurrences (td : List (List String)) (word : String) : ℕ :=
  (td.map (fun s => s.countP (fun w => w == word))).sum

/-- Claim-side companion for C8: the tokens of a sentence whose positions
lie within n of an occurrence position — clipped at the sentence boundaries
by construction, never padded and never drawn from another sentence. -/
def windowSpec (s : List String) (idx n : ℕ) : List String :=
  ((List.range s.length).filter (fun j => decide (idx ≤ j + n) && decide (j ≤ idx + n))).map
    (fun j => s.getD j nostr)

/-- Claim-side companion for C8: one space-joined window string per
occurrence of the word, sentences and occurrences in corpus order. -/
def contextSpec (td : List (List String)) (word : String) (n : ℕ) : List String :=
  td.flatMap (fun s =>
    (s.enum.filter (fun p => p.2 == word)).map (fun p =>
      String.intercalate spaceSep (windowSpec s p.1 n)))

/-- Unit vector along the first axis of the two-dimensional examples. -/
def ex : Vec := [1, 0]

/-- Unit vector along the second axis of the two-dimensional examples. -/
def ey : Vec := [0, 1]

/-- Concrete embedding for C1: vocabulary king, queen (no single-character
words), no corpus. -/
def embKQ : WordEmbedding := ⟨[(("king"), ex), (("queen"), ey)], none⟩

/-- C1: the ensemble projection queries are claimed to filter each
dimension's cluster word list down to the words present in each member's
vocabulary, excluding (with a notice) members left with no usable words.
The bipolar path does this, but the unipolar path iterates dim_words[0] —
the characters of the FIRST cluster word — so for the cluster
[king, queen] over a member whose vocabulary is exactly king, queen it
filters the one-character strings k, i, n, g instead of the cluster words,
finds none usable, and wrongly excludes the member, even though every
cluster word is in the vocabulary. -/
theorem C1_unipolar_filters_characters :
    memberUniCluster embKQ [("king"), ("queen")] = none
    ∧ usableCluster embKQ [("king"), ("queen")] = [("king"), ("queen")]
    ∧ processUnipolarDim [embKQ] [("king"), ("queen")] = .ok [none]
    ∧ memberBipolarClusters embKQ [[("king")], [("queen")]] =
        some ([("king")], [("queen")]) := by
  decide

/-- Helper: a structural map in the Except monad succeeds when every element
does, returning one output per input. -/
theorem mapE_ok_of_forall {α β : Type} {f : α → Except PyError β} :
    ∀ {as : List α}, (∀ a ∈ as, ∃ b, f a = .ok b) →
      ∃ bs, mapE f as = .ok bs ∧ bs.length = as.length := by
  intro as
  induction as with
  | nil => intro _; exact ⟨[], rfl, rfl⟩
  | cons a as ih =>
    intro h
    obtain ⟨b, hb⟩ := h a (List.mem_cons_self a as)
    obtain ⟨bs, hbs, hlen⟩ := ih (fun x hx => h x (List.mem_cons_of_mem a hx))
    exact ⟨b :: bs, by simp [mapE, hb, hbs], by simp [hlen]⟩

/-- Helper: if a structural map in the Except monad succeeds, every element
succeeded. -/
theorem forall_of_mapE_ok {α β : Type} {f : α → Except PyError β} :
    ∀ {as : List α} {bs : List β}, mapE f as = .ok bs →
      ∀ a ∈ as, ∃ b, f a = .ok b := by
  intro as
  induction as with
  | nil => intro bs _ a ha; cases ha
  | cons x xs ih =>
    intro bs hok a ha
    rw [mapE] at hok
    rcases hfx : f x with e | b
    · rw [hfx] at hok; cases hok
    · rw [hfx] at hok
      rcases hrest : mapE f xs with e | bs2
      · rw [hrest] at hok; cases hok
      · rcases List.mem_cons.mp ha with h1 | h2
        · exact ⟨b, h1 ▸ hfx⟩
        · exact ih hrest a h2

/-- Concrete embedding for C6: empty vocabulary (the corpus statistics never
consult it), corpus with sentences b, a, a. -/
def embBA : WordEmbedding := ⟨[], some [[("b")], [("a")], [("a")]]⟩

/-- C6: vocab_sorted_by_frequency_in_training_data is claimed to return
words ranked by corpus frequency, most frequent first.  The source builds
its table from Counter(flat_training_data) in first-encounter order and
never sorts it: on the corpus b / a / a it returns the row (b, 1) before
(a, 2), which is not in descending frequency order — while the companion
sort_by_frequency_in_training_data does sort its rows descending. -/
theorem C6_vocab_sorted_is_unsorted :
    embBA.vocab_sorted_by_frequency_in_training_data none none =
        .ok [(("b"), 1), (("a"), 2)]
    ∧ ¬ List.Sorted (fun p q : String × ℕ => p.2 ≥ q.2) [(("b"), 1), (("a"), 2)]
    ∧ embBA.sort_by_frequency_in_training_data [("b"), ("a")] =
        .ok [(("a"), 2), (("b"), 1)] := by
  refine ⟨by decide, ?_, by decide⟩
  intro h
  have := List.rel_of_sorted_cons h (("a"), 2) (by simp)
  omega

/-- C7: with no training corpus attached, each corpus-statistic operation
raises the precondition ValueError of its opening guard instead of
returning a default. -/
theorem C7_no_corpus_precondition (E : WordEmbedding) (word : String) (n : ℕ)
    (first_n more_frequent_than : Option ℕ) (h : E.training_data = none) :
    E.frequency_in_training_data word = .error .valueError
    ∧ E.context_in_training_data word n = .error .valueError
    ∧ E.vocab_sorted_by_frequency_in_training_data first_n more_frequent_than =
        .error .valueError := by
  refine ⟨?_, ?_, ?_⟩
  · simp [WordEmbedding.frequency_in_training_data, h]
  · simp [WordEmbedding.context_in_training_data, h]
  · simp [WordEmbedding.vocab_sorted_by_frequency_in_training_data, h]

/-- Concrete corpus-free embedding for the C7 witness. -/
def embNoCorpus : WordEmbedding := ⟨[(("a"), ex)], none⟩

/-- C7 witness: the precondition errors at a concrete corpus-free
embedding. -/
theorem C7_witness :
    embNoCorpus.training_data = none
    ∧ (embNoCorpus.frequency_in_training_data ("man") = .error .valueError
      ∧ embNoCorpus.context_in_training_data ("man") 3 = .error .valueError
      ∧ embNoCorpus.vocab_sorted_by_frequency_in_training_data none none =
          .error .valueError) :=
  ⟨rfl, C7_no_corpus_precondition embNoCorpus ("man") 3 none none rfl⟩

/-- C10: with a corpus attached, frequency_in_training_data returns the
occurrence count for EVERY word — no vocabulary membership is consulted —
and in particular returns 0, not an error, for a word occurring in no
sentence. -/
theorem C10_frequency_needs_no_vocab (E : WordEmbedding)
    (td : List (List String)) (word : String) (h : E.training_data = some td) :
    E.frequency_in_training_data word = .ok (countOccurrences td word)
    ∧ ((∀ s ∈ td, word ∉ s) → E.frequency_in_training_data word = .ok 0) := by
  have hmain : E.frequency_in_training_data word = .ok (countOccurrences td word) := by
    simp [WordEmbedding.frequency_in_training_data, h, countOccurrences,
      List.countP_eq_length_filter]
  refine ⟨hmain, fun habs => ?_⟩
  have hzero : countOccurrences td word = 0 := by
    simp only [countOccurrences]
    rw [List.sum_eq_zero]
    intro x hx
    obtain ⟨s, hs, hxs⟩ := List.mem_map.mp hx
    rw [← hxs]
    rw [List.countP_eq_zero]
    intro a ha hcontra
    rw [beq_iff_eq] at hcontra
    exact habs s hs (hcontra ▸ ha)
  rw [hmain, hzero]

/-- Concrete embedding for the C10 witness: the probe word is outside the
vocabulary and absent from the corpus. -/
def embAB : WordEmbedding := ⟨[(("a"), ex)], some [[("a"), ("b")]]⟩

/-- C10 witness: a word outside both vocabulary and corpus gets frequency
0 without an error. -/
theorem C10_witness :
    embAB.training_data = some [[("a"), ("b")]]
    ∧ embAB.in_vocab ("z") = false
    ∧ (embAB.frequency_in_training_data ("z") =
          .ok (countOccurrences [[("a"), ("b")]] ("z"))
      ∧ ((∀ s ∈ [[("a"), ("b")]], ("z") ∉ s) →
          embAB.frequency_in_training_data ("z") = .ok 0)) :=
  ⟨rfl, by decide, C10_frequency_needs_no_vocab embAB [[("a"), ("b")]] ("z") rfl⟩

/-- A world in which no file loads and no glob pattern matches. -/
def emptyWorld : LoadWorld := ⟨fun _ => none, fun _ => []⟩

/-- C9 counterexample: constructing an ensemble from an EXPLICIT empty path
list does not fail — the zero-embeddings guard exists only in the glob
branch — so an ensemble object with zero members is returned, contradicting
the claim that zero found embeddings always raise a load error. -/
theorem C9_counterexample :
    EmbeddingEnsemble.init emptyWorld (.inl []) = .ok ⟨[]⟩
    ∧ (⟨[]⟩ : EmbeddingEnsemble).list_of_embeddings.length = 0 :=
  ⟨rfl, rfl⟩

/-- C9 amended: a glob pattern matching zero files raises the load error; in
BOTH modes any unloadable path — whether given explicitly or produced by the
glob expansion — aborts the constructor with no partial object; and when
every explicit path loads, an ensemble with one member per path is returned,
so an explicitly empty path list yields an empty ensemble without an
error. -/
theorem C9_load_behaviour (w : LoadWorld) (paths : List String) (pattern : String) :
    (w.globMatches (pattern ++ String.mk ['*', '.', 'e', 'm', 'b']) = [] →
      EmbeddingEnsemble.init w (.inr pattern) = .error .embeddingError)
    ∧ (∀ p ∈ paths, w.files p = none →
        ∀ ens, EmbeddingEnsemble.init w (.inl paths) ≠ .ok ens)
    ∧ (∀ p ∈ w.globMatches (pattern ++ String.mk ['*', '.', 'e', 'm', 'b']),
        w.files p = none →
          ∀ ens, EmbeddingEnsemble.init w (.inr pattern) ≠ .ok ens)
    ∧ ((∀ q ∈ paths, (w.files q).isSome) →
        ∃ ens, EmbeddingEnsemble.init w (.inl paths) = .ok ens
          ∧ ens.list_of_embeddings.length = paths.length) := by
  refine ⟨?_, ?_, ?_, ?_⟩
  · intro hglob
    simp [EmbeddingEnsemble.init, hglob]
  · intro p hp hnone ens hok
    simp only [EmbeddingEnsemble.init] at hok
    rcases hm : mapE (loadWordEmbedding w) paths with e | embs
    · rw [hm] at hok; cases hok
    · obtain ⟨b, hb⟩ := forall_of_mapE_ok hm p hp
      simp [loadWordEmbedding, hnone] at hb
  · intro p hp hnone ens hok
    simp only [EmbeddingEnsemble.init] at hok
    rcases hglob2 : w.globMatches (pattern ++ String.mk ['*', '.', 'e', 'm', 'b'])
      with _ | ⟨q, qs⟩
    · rw [hglob2] at hp; cases hp
    · rw [hglob2] at hok hp
      rw [if_neg (by simp)] at hok
      rcases hm : mapE (loadWordEmbedding w) (q :: qs) with e | embs
      · rw [hm] at hok; cases hok
      · obtain ⟨b, hb⟩ := forall_of_mapE_ok hm p hp
        simp [loadWordEmbedding, hnone] at hb
  · intro hall
    have hex : ∀ p ∈ paths, ∃ b, loadWordEmbedding w p = .ok b := by
      intro p hp
      rcases hf : w.files p with _ | kv
      · have hcontra := hall p hp
        rw [hf] at hcontra
        simp at hcontra
      · exact ⟨⟨kv, none⟩, by simp [loadWordEmbedding, hf]⟩
    obtain ⟨bs, hbs, hlen⟩ := mapE_ok_of_forall hex
    exact ⟨⟨bs⟩, by simp [EmbeddingEnsemble.init, hbs], hlen⟩

/-- A world with a single loadable file for the C9 witness. -/
def oneFileWorld : LoadWorld :=
  ⟨fun p => if p == ("good.emb") then some [(("a"), ex)] else none, fun _ => []⟩

/-- A world whose glob expansion matches exactly one path that then fails to
load, for the failing-glob part of the C9 witness. -/
def globFailWorld : LoadWorld := ⟨fun _ => none, fun _ => [("bad.emb")]⟩

/-- C9 witness: each part of the load behaviour exercised non-vacuously at a
concrete world — a zero-match glob raising, an explicit unloadable path
aborting, a glob-matched unloadable path aborting, and a fully loadable
explicit list succeeding with one member per path. -/
theorem C9_witness :
    (emptyWorld.globMatches (("pat") ++ String.mk ['*', '.', 'e', 'm', 'b']) = []
      ∧ EmbeddingEnsemble.init emptyWorld (.inr ("pat")) = .error .embeddingError)
    ∧ (("bad") ∈ [("bad")] ∧ oneFileWorld.files ("bad") = none
      ∧ ∀ ens, EmbeddingEnsemble.init oneFileWorld (.inl [("bad")]) ≠ .ok ens)
    ∧ (("bad.emb") ∈ globFailWorld.globMatches (("pat") ++ String.mk ['*', '.', 'e', 'm', 'b'])
      ∧ globFailWorld.files ("bad.emb") = none
      ∧ ∀ ens, EmbeddingEnsemble.init globFailWorld (.inr ("pat")) ≠ .ok ens)
    ∧ ((∀ q ∈ [("good.emb")], (oneFileWorld.files q).isSome)
      ∧ ∃ ens, EmbeddingEnsemble.init oneFileWorld (.inl [("good.emb")]) = .ok ens
          ∧ ens.list_of_embeddings.length = [("good.emb")].length) :=
  ⟨⟨rfl, (C9_load_behaviour emptyWorld [] ("pat")).1 rfl⟩,
    ⟨by decide, rfl,
      (C9_load_behaviour oneFileWorld [("bad")] ("pat")).2.1 ("bad") (by decide) rfl⟩,
    ⟨by decide, rfl,
      (C9_load_behaviour globFailWorld [] ("pat")).2.2.1 ("bad.emb") (by decide) rfl⟩,
    ⟨by decide,
      (C9_load_behaviour oneFileWorld [("good.emb")] ("pat")).2.2.2 (by decide)⟩⟩

/-- The exact rational square root of 1 is 1. -/
theorem ratSqrt_one : ratSqrt 1 = 1 := by
  norm_num [ratSqrt, isqrt, isqrtAux, Rat.num_one, Rat.den_one, Int.toNat_one]

/-- Normalizing a vector that already has unit Euclidean length returns it
unchanged. -/
theorem normalize_vector_of_unit {v : Vec} (h : sumsq v = 1) :
    normalize_vector v = v := by
  simp [normalize_vector, h, ratSqrt_one, div_one]

/-- Evaluation rule: vector lookup of a vocabulary word whose stored vector
is already unit length. -/
theorem vector_eval {E : WordEmbedding} {w : String} {v : Vec}
    (hl : E.lookup w = some v) (hu : sumsq v = 1) : E.vector w = .ok v := by
  simp [WordEmbedding.vector, hl, normalize_vector_of_unit hu]

/-- Evaluation rule for the total vector lookup. -/
theorem vectorD_eval {E : WordEmbedding} {w : String} {v : Vec}
    (hl : E.lookup w = some v) (hu : sumsq v = 1) : E.vectorD w = v := by
  simp [WordEmbedding.vectorD, hl, normalize_vector_of_unit hu]

/-- The componentwise mean of a single vector is that vector. -/
theorem vecMean_single (v : Vec) : vecMean [v] = v := by
  simp [vecMean, div_one]

/-- Evaluation rule: the unnormalized centroid of a single-word cluster is
the word's vector. -/
theorem centroid_single {E : WordEmbedding} {w : String} {v : Vec}
    (hl : E.lookup w = some v) (hu : sumsq v = 1) :
    E.centroid_of_vectors [w] false = .ok v := by
  simp [WordEmbedding.centroid_of_vectors, mapE, vector_eval hl hu, vecMean_single]

/-- Concrete member for C5: vocabulary t, a, b with unit vectors. -/
def embTAB : WordEmbedding := ⟨[(("t"), ex), (("a"), ey), (("b"), ex)], none⟩

/-- C5: a bipolar dimension specified by a number of clusters other than two
is claimed to always raise a ValueError.  The single-embedding method does
(its check is len != 2), but the ensemble check of line 850 joins the two
conditions with `and`, so a THREE-cluster specification — where the first
two entries are lists — passes validation silently and the computation
proceeds on the first two clusters, here producing the projection -1. -/
theorem C5_ensemble_accepts_three_clusters :
    EmbeddingEnsemble.projections_to_bipolar_dimensions ⟨[embTAB]⟩ [("t")]
        [(("d"), [[("a")], [("b")], [("c")]])] false =
      .ok [(("t"), [some (-1, 0)])]
    ∧ embTAB.projections_to_bipolar_dimensions [("t")]
        [(("d"), [[("a")], [("b")], [("c")]])] false true = .error .valueError := by
  have hsx : sumsq ex = 1 := by norm_num [sumsq, ex]
  have hsy : sumsq ey = 1 := by norm_num [sumsq, ey]
  have hlt : embTAB.lookup ("t") = some ex := by decide
  have hla : embTAB.lookup ("a") = some ey := by decide
  have hlb : embTAB.lookup ("b") = some ex := by decide
  have hit : embTAB.in_vocab ("t") = true := by decide
  have hmc : memberBipolarClusters embTAB [[("a")], [("b")], [("c")]] =
      some ([("a")], [("b")]) := by decide
  have hproj : memberBipolarProjection embTAB ("t") ([("a")], [("b")]) false =
      .ok (-1) := by
    simp [memberBipolarProjection, vector_eval hlt hsx, centroid_single hla hsy,
      centroid_single hlb hsx]
    norm_num [dot, vecSub, ex, ey]
  constructor
  · simp [EmbeddingEnsemble.projections_to_bipolar_dimensions, processAllBipolar,
      processBipolarDim, bipolarArityCheck, bipolarTestLoop, dimCells, memberScores,
      hmc, hproj, hit, npMeanStd, rowMean]
  · simp [WordEmbedding.projections_to_bipolar_dimensions, mapE,
      vector_eval hlt hsx]

/-- First member for C3: similarity(a, b) = 1. -/
def embS1 : WordEmbedding := ⟨[(("a"), ex), (("b"), ex)], none⟩

/-- Second member for C3: similarity(a, b) = 0. -/
def embS2 : WordEmbedding := ⟨[(("a"), ex), (("b"), ey)], none⟩

/-- C3: ensemble similarities is claimed to return the wide table with MEAN
and STANDARD DEVIATION computed over the N member columns only.  In the
source the method always raises AttributeError at line 833 — the
EmbeddingEnsemble constructor never sets self.training_data — so no table is
returned at all; and in the table built just before the crash the STD cell
is computed AFTER the MEAN column was appended, so for member similarities
1 and 0 it is the sample statistic of (1, 0, 0.5), radicand 1/4, not the
sample statistic of the member values alone, radicand 1/2. -/
theorem C3_similarities_always_raises :
    EmbeddingEnsemble.similarities ⟨[embS1, embS2]⟩ [(("a"), ("b"))] =
        .error .attributeError
    ∧ simTableWide ⟨[embS1, embS2]⟩ [(("a"), ("b"))] =
        .ok [⟨("a"), ("b"), [1, 0], 1 / 2, 1 / 4⟩]
    ∧ sampleVariance [1, 0] = 1 / 2
    ∧ (1 / 4 : ℚ) ≠ 1 / 2 := by
  have hsx : sumsq ex = 1 := by norm_num [sumsq, ex]
  have hsy : sumsq ey = 1 := by norm_num [sumsq, ey]
  have hround1 : pyRound3 1 = 1 := by norm_num [pyRound3, pyRoundHalfEven]
  have hround0 : pyRound3 0 = 0 := by norm_num [pyRound3, pyRoundHalfEven]
  have hsim1 : embS1.similarities [(("a"), ("b"))] = .ok [(("a"), ("b"), (1 : ℚ))] := by
    have hva : embS1.lookup ("a") = some ex := by decide
    have hvb : embS1.lookup ("b") = some ex := by decide
    have hdot : dot ex ex = 1 := by norm_num [dot, ex]
    simp [WordEmbedding.similarities, mapE, WordEmbedding.similarity,
      vector_eval hva hsx, vector_eval hvb hsx, hdot, hround1,
      insertionSortBy, insertIn]
  have hsim2 : embS2.similarities [(("a"), ("b"))] = .ok [(("a"), ("b"), (0 : ℚ))] := by
    have hva : embS2.lookup ("a") = some ex := by decide
    have hvb : embS2.lookup ("b") = some ey := by decide
    have hdot : dot ex ey = 0 := by norm_num [dot, ex, ey]
    simp [WordEmbedding.similarities, mapE, WordEmbedding.similarity,
      vector_eval hva hsx, vector_eval hvb hsy, hdot, hround0,
      insertionSortBy, insertIn]
  have htable : simTableWide ⟨[embS1, embS2]⟩ [(("a"), ("b"))] =
      .ok [⟨("a"), ("b"), [1, 0], 1 / 2, 1 / 4⟩] := by
    simp [simTableWide, hsim1, hsim2, mergeRest, mergeOnWords, rowMean,
      pandasSampleVar]
    norm_num
  refine ⟨?_, htable, by norm_num [sampleVariance, rowMean], by norm_num⟩
  simp [EmbeddingEnsemble.similarities, htable]

/-- For a vocabulary word, vector lookup succeeds with the total value. -/
theorem vector_eq_vectorD (E : WordEmbedding) (w : String)
    (h : E.in_vocab w = true) : E.vector w = .ok (E.vectorD w) := by
  rcases hl : E.lookup w with _ | v
  · rw [WordEmbedding.in_vocab, hl] at h; simp at h
  · simp [WordEmbedding.vector, WordEmbedding.vectorD, hl]

/-- A pair drawn from the zip of a list with itself has equal components. -/
theorem zip_self_diag {α : Type} : ∀ (v : List α) (p : α × α), p ∈ v.zip v → p.1 = p.2
  | [], _, hp => by cases hp
  | x :: xs, p, hp => by
    rcases List.mem_cons.mp (by simpa [List.zip_cons_cons] using hp) with h | h
    · rw [h]
    · exact zip_self_diag xs p h

/-- np.allclose accepts a vector against itself (each componentwise
difference is 0, below the strictly positive tolerance). -/
theorem npAllclose_self (v : Vec) : npAllclose v v = true := by
  simp only [npAllclose, beq_self_eq_true, Bool.true_and, List.all_eq_true]
  intro p hp
  rw [decide_eq_true_eq, zip_self_diag v p hp, sub_self, abs_zero]
  have h0 : (0 : ℚ) < atol := by norm_num [atol]
  have hr : (0 : ℚ) ≤ rtol := by norm_num [rtol]
  have h2 : (0 : ℚ) ≤ rtol * |p.2| := mul_nonneg hr (abs_nonneg p.2)
  linarith

/-- First C4 vector: the rational unit vector at circle parameter
t = 1/20000. -/
def vP : Vec := [399999999 / 400000001, 40000 / 400000001]

/-- Second C4 vector: the rational unit vector at circle parameter
s = t + 1/2000000000; its second component differs from vP's by about 1e-9,
which is beyond the absolute tolerance 1e-10 but within the relative band
rtol * 1e-4 of np.allclose. -/
def vQ : Vec :=
  [3999999989999799999 / 4000000010000200001, 400004000000000 / 4000000010000200001]

/-- Concrete embedding for the C4 counterexample. -/
def embC4 : WordEmbedding := ⟨[(("w1"), vQ), (("w2"), vP)], none⟩

/-- C4 counterexample: difference_vector is claimed to raise exactly when
the two normalized vectors agree within an ABSOLUTE tolerance of 1e-10.
np.allclose keeps its default relative tolerance 1e-5, so for these two unit
vectors — whose second components differ by about 1e-9, ten times the
absolute tolerance — the source raises the ValueError although the claim
says it must not. -/
theorem C4_counterexample :
    embC4.difference_vector ("w1") ("w2") false = .error .valueError
    ∧ absClose (embC4.vectorD ("w1")) (embC4.vectorD ("w2")) = false := by
  have hsP : sumsq vP = 1 := by norm_num [sumsq, vP]
  have hsQ : sumsq vQ = 1 := by norm_num [sumsq, vQ]
  have hl1 : embC4.lookup ("w1") = some vQ := rfl
  have hl2 : embC4.lookup ("w2") = some vP := rfl
  have habs0 : |(399999999 / 400000001 : ℚ)| = 399999999 / 400000001 :=
    abs_of_pos (by norm_num)
  have habs1 : |(40000 / 400000001 : ℚ)| = 40000 / 400000001 :=
    abs_of_pos (by norm_num)
  have hc0 : |(3999999989999799999 / 4000000010000200001 : ℚ) - 399999999 / 400000001| ≤
      atol + rtol * |(399999999 / 400000001 : ℚ)| := by
    rw [habs0, abs_le]
    constructor <;> norm_num [atol, rtol]
  have hc1 : |(400004000000000 / 4000000010000200001 : ℚ) - 40000 / 400000001| ≤
      atol + rtol * |(40000 / 400000001 : ℚ)| := by
    rw [habs1, abs_le]
    constructor <;> norm_num [atol, rtol]
  have hac : npAllclose vQ vP = true := by
    simp only [npAllclose, vQ, vP, List.zip_cons_cons, List.zip_nil_right,
      List.all_cons, List.all_nil, List.length_cons, List.length_nil,
      beq_self_eq_true, Bool.true_and, Bool.and_true, Bool.and_eq_true,
      decide_eq_true_eq]
    exact ⟨hc0, hc1⟩
  have hnc1 : ¬ (|(400004000000000 / 4000000010000200001 : ℚ) - 40000 / 400000001| ≤ atol) := by
    rw [not_le, abs_of_pos (by norm_num)]
    norm_num [atol]
  have habsc : absClose vQ vP = false := by
    simp only [absClose, vQ, vP, List.zip_cons_cons, List.zip_nil_right,
      List.all_cons, List.all_nil, List.length_cons, List.length_nil,
      beq_self_eq_true, Bool.true_and, Bool.and_true, decide_eq_false hnc1,
      Bool.and_false]
  refine ⟨?_, ?_⟩
  · rw [WordEmbedding.difference_vector, vector_eval hl1 hsQ, vector_eval hl2 hsP]
    simp [hac]
  · rw [vectorD_eval hl1 hsQ, vectorD_eval hl2 hsP, habsc]

/-- C4 amended: difference_vector raises its ValueError exactly when
np.allclose — elementwise |v1_i - v2_i| ≤ 1e-10 + 1e-5 * |v2_i|, the numpy
default relative tolerance together with the absolute tolerance — accepts
the two unit-normalized vectors; in particular difference_vector(a, a)
raises for every vocabulary word a, whose vector is allclose to itself. -/
theorem C4_error_iff_allclose (E : WordEmbedding) (word1 word2 a : String)
    (nb : Bool) (h1 : E.in_vocab word1 = true) (h2 : E.in_vocab word2 = true)
    (ha : E.in_vocab a = true) :
    (E.difference_vector word1 word2 nb = .error .valueError ↔
      npAllclose (E.vectorD word1) (E.vectorD word2) = true)
    ∧ E.difference_vector a a nb = .error .valueError := by
  constructor
  · rw [WordEmbedding.difference_vector, vector_eq_vectorD E word1 h1,
      vector_eq_vectorD E word2 h2]
    rcases hB : npAllclose (E.vectorD word1) (E.vectorD word2) with _ | _
    · simp [hB]
    · simp [hB]
  · rw [WordEmbedding.difference_vector, vector_eq_vectorD E a ha]
    simp [npAllclose_self]

/-- C4 witness: the amended equivalence at a concrete embedding, with the
degenerate same-word case raising. -/
theorem C4_witness :
    embTAB.in_vocab ("t") = true ∧ embTAB.in_vocab ("a") = true
    ∧ ((embTAB.difference_vector ("t") ("a") false = .error .valueError ↔
        npAllclose (embTAB.vectorD ("t")) (embTAB.vectorD ("a")) = true)
      ∧ embTAB.difference_vector ("a") ("a") false = .error .valueError) :=
  ⟨by decide, by decide,
    C4_error_iff_allclose embTAB ("t") ("a") ("a") false (by decide) (by decide)
      (by decide)⟩

/-- The indices of range L lying in the band [a, b] form a contiguous
block. -/
theorem filter_range_band (L a b : ℕ) :
    (List.range L).filter (fun j => decide (a ≤ j) && decide (j ≤ b)) =
      List.range' a (min (b + 1) L - a) := by
  induction L with
  | zero => simp
  | succ L ih =>
    rw [List.range_succ, List.filter_append, ih]
    by_cases hL1 : a ≤ L
    · by_cases hL2 : L ≤ b
      · have h1 : min (b + 1) (L + 1) - a = (min (b + 1) L - a) + 1 := by omega
        have h2 : a + 1 * (min (b + 1) L - a) = L := by omega
        rw [h1, List.range'_concat, h2]
        simp [hL1, hL2]
      · have h1 : min (b + 1) (L + 1) = min (b + 1) L := by omega
        simp [hL1, hL2, h1]
    · have h1 : min (b + 1) (L + 1) - a = 0 := by omega
      have h2 : min (b + 1) L - a = 0 := by omega
      simp [hL1, h1, h2]

/-- Reading a contiguous index block out of a list is a drop-and-take. -/
theorem map_getD_range' (s : List String) (a k : ℕ) (h : a + k ≤ s.length) :
    (List.range' a k).map (fun j => s.getD j nostr) = (s.drop a).take k := by
  apply List.ext_getElem
  · simp only [List.length_map, List.length_range', List.length_take,
      List.length_drop]
    omega
  · intro i h1 h2
    have hi : i < k := by simpa [List.length_range'] using h1
    have hik : a + i < s.length := by omega
    rw [List.getElem_map, List.getElem_range', List.getElem_take,
      List.getElem_drop]
    simp only [one_mul]
    exact List.getD_eq_getElem s nostr hik

/-- The claim-side window of an occurrence equals the drop-and-take slice the
source computes (with the source's branches already rewritten to truncated
subtraction and min). -/
theorem windowSpec_eq_take_drop (s : List String) (idx n : ℕ)
    (hidx : idx < s.length) :
    windowSpec s idx n =
      (s.drop (idx - n)).take (min (s.length - 1) (idx + n) + 1 - (idx - n)) := by
  have hfil : (List.range s.length).filter
        (fun j => decide (idx ≤ j + n) && decide (j ≤ idx + n)) =
      (List.range s.length).filter
        (fun j => decide (idx - n ≤ j) && decide (j ≤ min (s.length - 1) (idx + n))) := by
    apply List.filter_congr
    intro j hj
    have hjL : j < s.length := List.mem_range.mp hj
    have e1 : decide (idx ≤ j + n) = decide (idx - n ≤ j) :=
      decide_eq_decide.mpr (by omega)
    have e2 : decide (j ≤ idx + n) = decide (j ≤ min (s.length - 1) (idx + n)) :=
      decide_eq_decide.mpr (by omega)
    rw [e1, e2]
  rw [windowSpec, hfil, filter_range_band]
  have hmin : min (min (s.length - 1) (idx + n) + 1) s.length =
      min (s.length - 1) (idx + n) + 1 := by omega
  rw [hmin]
  apply map_getD_range'
  omega

/-- Congruence for flatMap with pointwise-equal functions. -/
theorem flatMapCongr {α β : Type} {f g : α → List β} :
    ∀ {l : List α}, (∀ a ∈ l, f a = g a) → l.flatMap f = l.flatMap g := by
  intro l
  induction l with
  | nil => intro _; rfl
  | cons x xs ih =>
    intro h
    simp only [List.flatMap_cons]
    rw [h x (List.mem_cons_self x xs), ih (fun a ha => h a (List.mem_cons_of_mem x ha))]

/-- Counting matching enum entries is counting matching tokens. -/
theorem enum_filter_snd_length (s : List String) (word : String) :
    (s.enum.filter (fun p => p.2 == word)).length = s.countP (fun w => w == word) := by
  have h1 : s.filter (fun w => w == word) =
      (s.enum.map Prod.snd).filter (fun w => w == word) := by
    rw [List.enum_map_snd]
  rw [List.countP_eq_length_filter, h1, List.filter_map, List.length_map]
  congr 1

/-- C8: with a corpus attached, context_in_training_data returns exactly one
space-joined string per occurrence of the word, each the tokens whose
positions lie within n of the occurrence inside the SAME sentence (clipped
at its boundaries, never padded, never crossing into another sentence), and
the number of returned strings equals the occurrence count. -/
theorem C8_context_clipped_windows (E : WordEmbedding) (td : List (List String))
    (word : String) (n : ℕ) (h : E.training_data = some td) :
    E.context_in_training_data word n = .ok (contextSpec td word n)
    ∧ (contextSpec td word n).length = countOccurrences td word := by
  constructor
  · simp only [WordEmbedding.context_in_training_data, h, contextSpec,
      Except.ok.injEq]
    apply flatMapCongr
    intro s _
    apply List.map_congr_left
    intro p hp
    have hmem : p ∈ s.enum := (List.mem_filter.mp hp).1
    have hlt : p.1 < s.length := by
      rw [List.enum_eq_zip_range] at hmem
      have hz := List.of_mem_zip (show (p.1, p.2) ∈ (List.range s.length).zip s by
        simpa using hmem)
      exact List.mem_range.mp hz.1
    have hstart : (if p.1 < n then 0 else p.1 - n) = p.1 - n := by
      split <;> omega
    have hstop : (if s.length - 1 < p.1 + n then s.length - 1 else p.1 + n) =
        min (s.length - 1) (p.1 + n) := by
      split <;> omega
    simp only [hstart, hstop, ← windowSpec_eq_take_drop s p.1 n hlt]
  · rw [contextSpec, List.length_flatMap, countOccurrences]
    congr 1
    apply List.map_congr_left
    intro s _
    simp only [Function.comp, List.length_map]
    exact enum_filter_snd_length s word

/-- Concrete corpus for the C8 witness. -/
def c8td : List (List String) := [[("x"), ("t"), ("y"), ("z")], [("t")]]

/-- Concrete embedding carrying the C8 witness corpus. -/
def embC8 : WordEmbedding := ⟨[], some c8td⟩

/-- C8 witness: the clipped windows at a concrete corpus — the occurrence at
position 1 of the first sentence yields the three-token window, the final
one-token sentence yields itself, and the count matches. -/
theorem C8_witness :
    embC8.training_data = some c8td
    ∧ contextSpec c8td ("t") 1 = [("x t y"), ("t")]
    ∧ (embC8.context_in_training_data ("t") 1 = .ok (contextSpec c8td ("t") 1)
      ∧ (contextSpec c8td ("t") 1).length = countOccurrences c8td ("t")) :=
  ⟨rfl, by decide, C8_context_clipped_windows embC8 c8td ("t") 1 rfl⟩

/-- Words surviving the vocabulary filter are vocabulary words. -/
theorem usableCluster_in_vocab {E : WordEmbedding} {ws : List String} {w : String}
    (hw : w ∈ usableCluster E ws) : E.in_vocab w = true :=
  (List.mem_filter.mp hw).2

/-- Mapping the vector lookup over vocabulary words succeeds with the total
values. -/
theorem mapE_vector_ok (E : WordEmbedding) (ws : List String)
    (h : ∀ w ∈ ws, E.in_vocab w = true) :
    mapE E.vector ws = .ok (ws.map E.vectorD) := by
  induction ws with
  | nil => rfl
  | cons x xs ih =>
    rw [mapE, vector_eq_vectorD E x (h x (List.mem_cons_self x xs)),
      ih (fun w hw => h w (List.mem_cons_of_mem x hw))]
    rfl

/-- The unnormalized centroid of vocabulary words succeeds with the total
value. -/
theorem centroid_ok (E : WordEmbedding) (ws : List String)
    (h : ∀ w ∈ ws, E.in_vocab w = true) :
    E.centroid_of_vectors ws false = .ok (E.centroidD ws) := by
  simp [WordEmbedding.centroid_of_vectors, mapE_vector_ok E ws h,
    WordEmbedding.centroidD]

/-- A member's projection computation succeeds with the total claim-side
value once the test word and both filtered clusters are vocabulary words. -/
theorem memberProjection_ok (E : WordEmbedding) (t : String)
    (lr : List String × List String) (nb : Bool) (ht : E.in_vocab t = true)
    (hl : ∀ w ∈ lr.1, E.in_vocab w = true) (hr : ∀ w ∈ lr.2, E.in_vocab w = true) :
    memberBipolarProjection E t lr nb = .ok (memberProjectionVal E t lr nb) := by
  rw [memberProjectionVal, memberBipolarProjection, vector_eq_vectorD E t ht,
    centroid_ok E lr.1 hl, centroid_ok E lr.2 hr]

/-- A member contributes to a dimension exactly when it has the test word
and a processed cluster entry. -/
theorem contributes_eq_isSome (E : WordEmbedding) (t : String)
    (clusters : List (List String)) :
    contributes E t clusters =
      (E.in_vocab t && (memberBipolarClusters E clusters).isSome) := by
  rw [contributes, memberBipolarClusters]
  dsimp only
  cases hu0 : usableCluster E (clusters.getD 0 []) with
  | nil => simp
  | cons w0 ws0 =>
    cases hu1 : usableCluster E (clusters.getD 1 []) with
    | nil => simp
    | cons w1 ws1 => simp

/-- A processed cluster entry carries exactly the two vocabulary-filtered
cluster word lists. -/
theorem memberBipolarClusters_some_eq {E : WordEmbedding}
    {clusters : List (List String)} {lr : List String × List String}
    (h : memberBipolarClusters E clusters = some lr) :
    lr = (usableCluster E (clusters.getD 0 []),
      usableCluster E (clusters.getD 1 [])) := by
  rw [memberBipolarClusters] at h
  cases hu0 : usableCluster E (clusters.getD 0 []) with
  | nil => rw [hu0] at h; simp at h
  | cons w0 ws0 =>
    rw [hu0] at h
    cases hu1 : usableCluster E (clusters.getD 1 []) with
    | nil => rw [hu1] at h; simp at h
    | cons w1 ws1 =>
      rw [hu1] at h
      simp at h
      exact h.symm

/-- Walking the members with their positionally aligned processed clusters
collects exactly the claim-side per-member scores. -/
theorem memberScores_eq (t : String) (nb : Bool) (clusters : List (List String)) :
    ∀ embs : List WordEmbedding,
      memberScores t nb embs (embs.map (fun E => memberBipolarClusters E clusters)) =
        .ok (perMemberScores embs t clusters nb)
  | [] => rfl
  | E :: Es => by
    have ih := memberScores_eq t nb clusters Es
    by_cases hv : E.in_vocab t
    · rcases hmc : memberBipolarClusters E clusters with _ | lr
      · have hcon : contributes E t clusters = false := by
          rw [contributes_eq_isSome, hmc]
          simp
        have hR : perMemberScores (E :: Es) t clusters nb =
            perMemberScores Es t clusters nb := by
          simp [perMemberScores, List.filter_cons, hcon]
        rw [hR, List.map_cons]
        simp only [memberScores, hmc, hv, if_true]
        exact ih
      · have hlr := memberBipolarClusters_some_eq hmc
        have hcon : contributes E t clusters = true := by
          rw [contributes_eq_isSome, hmc]
          simp [hv]
        have hl : ∀ w ∈ lr.1, E.in_vocab w = true := by
          intro w hw
          rw [hlr] at hw
          exact usableCluster_in_vocab hw
        have hr : ∀ w ∈ lr.2, E.in_vocab w = true := by
          intro w hw
          rw [hlr] at hw
          exact usableCluster_in_vocab hw
        have hR : perMemberScores (E :: Es) t clusters nb =
            memberProjectionVal E t (usableCluster E (clusters.getD 0 []),
              usableCluster E (clusters.getD 1 [])) nb ::
              perMemberScores Es t clusters nb := by
          simp [perMemberScores, List.filter_cons, hcon]
        rw [hR, List.map_cons]
        simp only [memberScores, hmc, hv, if_true]
        rw [memberProjection_ok E t lr nb hv hl hr, ih, hlr]
    · have hv2 : E.in_vocab t = false := by
        simpa using hv
      have hcon : contributes E t clusters = false := by
        rw [contributes_eq_isSome, hv2]
        simp
      have hR : perMemberScores (E :: Es) t clusters nb =
          perMemberScores Es t clusters nb := by
        simp [perMemberScores, List.filter_cons, hcon]
      rw [hR, List.map_cons]
      simp only [memberScores, hv2, Bool.false_eq_true, if_false]
      exact ih

/-- Under the (length at least two) shape actually accepted by the ensemble
check, dimension preprocessing succeeds and is the positional map of the
per-member cluster filter. -/
theorem processAllBipolar_ok (embs : List WordEmbedding)
    (dims : List (String × List (List String)))
    (h : ∀ d ∈ dims, 2 ≤ d.2.length) :
    processAllBipolar embs dims =
      .ok (dims.map (fun d => embs.map (fun E => memberBipolarClusters E d.2))) := by
  induction dims with
  | nil => rfl
  | cons d ds ih =>
    have hd := h d (List.mem_cons_self d ds)
    have harity : bipolarArityCheck d.2 = .ok () := by
      by_cases h2 : d.2.length = 2
      · simp [bipolarArityCheck, h2]
      · have hlt : ¬ d.2.length < 2 := by omega
        simp [bipolarArityCheck, h2, hlt]
    simp [processAllBipolar, processBipolarDim, harity,
      ih (fun x hx => h x (List.mem_cons_of_mem d hx))]

/-- The per-dimension cell loop produces one (mean, std radicand) cell per
dimension from the claim-side scores. -/
theorem dimCells_eq (embs : List WordEmbedding) (t : String) (nb : Bool)
    (dims : List (String × List (List String))) :
    dimCells embs t nb
        (dims.map (fun d => embs.map (fun E => memberBipolarClusters E d.2))) =
      .ok (dims.map (fun d => npMeanStd (perMemberScores embs t d.2 nb))) := by
  induction dims with
  | nil => rfl
  | cons d ds ih =>
    simp [dimCells, memberScores_eq, ih]

/-- The test-word loop keeps exactly the test words present in some member
vocabulary, one row each. -/
theorem bipolarTestLoop_eq (embs : List WordEmbedding) (nb : Bool)
    (dims : List (String × List (List String))) (tests : List String) :
    bipolarTestLoop embs
        (dims.map (fun d => embs.map (fun E => memberBipolarClusters E d.2))) nb tests =
      .ok (tests.filterMap (fun t =>
        if embs.any (fun E => E.in_vocab t) then
          some (t, dims.map (fun d => npMeanStd (perMemberScores embs t d.2 nb)))
        else none)) := by
  induction tests with
  | nil => rfl
  | cons t ts ih =>
    by_cases ha : embs.any (fun E => E.in_vocab t)
    · simp only [bipolarTestLoop, ha, if_true, dimCells_eq, ih,
        List.filterMap_cons]
    · have ha2 : embs.any (fun E => E.in_vocab t) = false := by
        simpa using ha
      simp only [bipolarTestLoop, ha2, Bool.false_eq_true, if_false,
        List.filterMap_cons, ih]

/-- Words surviving the unipolar character filter are vocabulary words. -/
theorem uniUsable_in_vocab {E : WordEmbedding} {dw : List String} {w : String}
    (hw : w ∈ uniUsable E dw) : E.in_vocab w = true :=
  (List.mem_filter.mp hw).2

/-- A member's unipolar projection computation succeeds with the total
claim-side value once the test word and the processed cluster are vocabulary
words. -/
theorem memberUniProjection_ok (E : WordEmbedding) (t : String)
    (cluster : List String) (nb : Bool) (ht : E.in_vocab t = true)
    (hc : ∀ w ∈ cluster, E.in_vocab w = true) :
    memberUniProjection E t cluster nb = .ok (memberUniProjectionVal E t cluster nb) := by
  rw [memberUniProjectionVal, memberUniProjection, vector_eq_vectorD E t ht,
    centroid_ok E cluster hc]

/-- A member contributes to a unipolar dimension exactly when it has the
test word and a processed cluster entry. -/
theorem uniContributes_eq_isSome (E : WordEmbedding) (t : String)
    (dw : List String) :
    uniContributes E t dw = (E.in_vocab t && (memberUniCluster E dw).isSome) := by
  rw [uniContributes, uniUsable, memberUniCluster]
  cases hu : (charWords dw.headI).filter E.in_vocab with
  | nil => simp
  | cons w ws => simp

/-- A processed unipolar cluster entry carries exactly the member's usable
word list. -/
theorem memberUniCluster_some_eq {E : WordEmbedding} {dw : List String}
    {c : List String} (h : memberUniCluster E dw = some c) :
    c = uniUsable E dw := by
  rw [memberUniCluster] at h
  rw [uniUsable]
  cases hu : (charWords dw.headI).filter E.in_vocab with
  | nil => rw [hu] at h; simp at h
  | cons w ws =>
    rw [hu] at h
    simp at h
    exact h.symm

/-- Walking the members with their positionally aligned processed unipolar
clusters collects exactly the claim-side per-member scores. -/
theorem memberUniScores_eq (t : String) (nb : Bool) (dw : List String) :
    ∀ embs : List WordEmbedding,
      memberUniScores t nb embs (embs.map (fun E => memberUniCluster E dw)) =
        .ok (perMemberUniScores embs t dw nb)
  | [] => rfl
  | E :: Es => by
    have ih := memberUniScores_eq t nb dw Es
    by_cases hv : E.in_vocab t
    · rcases hmc : memberUniCluster E dw with _ | c
      · have hcon : uniContributes E t dw = false := by
          rw [uniContributes_eq_isSome, hmc]
          simp
        have hR : perMemberUniScores (E :: Es) t dw nb =
            perMemberUniScores Es t dw nb := by
          simp [perMemberUniScores, List.filter_cons, hcon]
        rw [hR, List.map_cons]
        simp only [memberUniScores, hmc, hv, if_true]
        exact ih
      · have hc := memberUniCluster_some_eq hmc
        have hcon : uniContributes E t dw = true := by
          rw [uniContributes_eq_isSome, hmc]
          simp [hv]
        have hcv : ∀ w ∈ c, E.in_vocab w = true := by
          intro w hw
          rw [hc] at hw
          exact uniUsable_in_vocab hw
        have hR : perMemberUniScores (E :: Es) t dw nb =
            memberUniProjectionVal E t (uniUsable E dw) nb ::
              perMemberUniScores Es t dw nb := by
          simp [perMemberUniScores, List.filter_cons, hcon]
        rw [hR, List.map_cons]
        simp only [memberUniScores, hmc, hv, if_true]
        rw [memberUniProjection_ok E t c nb hv hcv, ih, hc]
    · have hv2 : E.in_vocab t = false := by
        simpa using hv
      have hcon : uniContributes E t dw = false := by
        rw [uniContributes_eq_isSome, hv2]
        simp
      have hR : perMemberUniScores (E :: Es) t dw nb =
          perMemberUniScores Es t dw nb := by
        simp [perMemberUniScores, List.filter_cons, hcon]
      rw [hR, List.map_cons]
      simp only [memberUniScores, hv2, Bool.false_eq_true, if_false]
      exact ih

/-- For nonempty unipolar word lists (the IndexError of dim_words[0] cannot
fire), dimension preprocessing succeeds and is the positional map of the
per-member character filter. -/
theorem processAllUnipolar_ok (embs : List WordEmbedding)
    (dims : List (String × List String)) (h : ∀ d ∈ dims, d.2 ≠ []) :
    processAllUnipolar embs dims =
      .ok (dims.map (fun d => embs.map (fun E => memberUniCluster E d.2))) := by
  induction dims with
  | nil => rfl
  | cons d ds ih =>
    have hne : d.2.isEmpty = false := by
      cases hd : d.2 with
      | nil => exact absurd hd (h d (List.mem_cons_self d ds))
      | cons x xs => rfl
    simp [processAllUnipolar, processUnipolarDim, hne,
      ih (fun x hx => h x (List.mem_cons_of_mem d hx))]

/-- The unipolar per-dimension cell loop produces one (mean, std radicand)
cell per dimension from the claim-side scores. -/
theorem uniDimCells_eq (embs : List WordEmbedding) (t : String) (nb : Bool)
    (dims : List (String × List String)) :
    uniDimCells embs t nb
        (dims.map (fun d => embs.map (fun E => memberUniCluster E d.2))) =
      .ok (dims.map (fun d => npMeanStd (perMemberUniScores embs t d.2 nb))) := by
  induction dims with
  | nil => rfl
  | cons d ds ih =>
    simp [uniDimCells, memberUniScores_eq, ih]

/-- The unipolar test-word loop keeps exactly the test words present in some
member vocabulary, one row each. -/
theorem unipolarTestLoop_eq (embs : List WordEmbedding) (nb : Bool)
    (dims : List (String × List String)) (tests : List String) :
    unipolarTestLoop embs
        (dims.map (fun d => embs.map (fun E => memberUniCluster E d.2))) nb tests =
      .ok (tests.filterMap (fun t =>
        if embs.any (fun E => E.in_vocab t) then
          some (t, dims.map (fun d => npMeanStd (perMemberUniScores embs t d.2 nb)))
        else none)) := by
  induction tests with
  | nil => rfl
  | cons t ts ih =>
    by_cases ha : embs.any (fun E => E.in_vocab t)
    · simp only [unipolarTestLoop, ha, if_true, uniDimCells_eq, ih,
        List.filterMap_cons]
    · have ha2 : embs.any (fun E => E.in_vocab t) = false := by
        simpa using ha
      simp only [unipolarTestLoop, ha2, Bool.false_eq_true, if_false,
        List.filterMap_cons, ih]

/-- C2: for every ensemble projection query — bipolar (line 950) and
unipolar (line 1049) alike — every retained row carries, per dimension, the
pair (arithmetic mean of the per-member scores that could be computed,
radicand of np.std over those same scores): the POPULATION standard
deviation, ddof 0, not the sample standard deviation the claim names.  A
cell with exactly one contributing member reports radicand 0, hence
standard deviation 0. -/
theorem C2_mean_and_population_std (ens : EmbeddingEnsemble)
    (test utest : List String) (dimensions : List (String × List (List String)))
    (udimensions : List (String × List String)) (normalize_before unb : Bool)
    (h : ∀ d ∈ dimensions, 2 ≤ d.2.length) (hu : ∀ d ∈ udimensions, d.2 ≠ []) :
    ens.projections_to_bipolar_dimensions test dimensions normalize_before =
      .ok (test.filterMap (fun t =>
        if ens.list_of_embeddings.any (fun E => E.in_vocab t) then
          some (t, dimensions.map (fun d =>
            npMeanStd (perMemberScores ens.list_of_embeddings t d.2 normalize_before)))
        else none))
    ∧ ens.projections_to_unipolar_dimensions utest udimensions unb =
        .ok (utest.filterMap (fun t =>
          if ens.list_of_embeddings.any (fun E => E.in_vocab t) then
            some (t, udimensions.map (fun d =>
              npMeanStd (perMemberUniScores ens.list_of_embeddings t d.2 unb)))
          else none))
    ∧ (∀ x : ℚ, npMeanStd [x] = some (x, 0)) := by
  refine ⟨?_, ?_, ?_⟩
  · rw [EmbeddingEnsemble.projections_to_bipolar_dimensions,
      processAllBipolar_ok ens.list_of_embeddings dimensions h]
    exact bipolarTestLoop_eq ens.list_of_embeddings normalize_before dimensions test
  · rw [EmbeddingEnsemble.projections_to_unipolar_dimensions,
      processAllUnipolar_ok ens.list_of_embeddings udimensions hu]
    exact unipolarTestLoop_eq ens.list_of_embeddings unb udimensions utest
  · intro x
    simp [npMeanStd, rowMean, div_one]

/-- The centroid of a single word is the word's vector. -/
theorem centroidD_single (E : WordEmbedding) (w : String) :
    E.centroidD [w] = E.vectorD w := by
  simp [WordEmbedding.centroidD, vecMean_single]

/-- First C2 member: the projection of t onto the l-minus-r dimension is 1. -/
def embM1 : WordEmbedding := ⟨[(("t"), ex), (("l"), ex), (("r"), ey)], none⟩

/-- Second C2 member: the projection of t onto the l-minus-r dimension
is -1. -/
def embM2 : WordEmbedding := ⟨[(("t"), ex), (("l"), ey), (("r"), ex)], none⟩

/-- C2 counterexample: with member scores 1 and -1 the reported cell is
(mean 0, std radicand 1): np.std is the population statistic, so the
reported standard deviation is sqrt 1 = 1, whereas the sample standard
deviation of the two contributing scores is sqrt of their sample variance 2,
which is not 1 — the claim's "sample standard deviation" does not match the
code. -/
theorem C2_counterexample :
    EmbeddingEnsemble.projections_to_bipolar_dimensions ⟨[embM1, embM2]⟩ [("t")]
        [(("d"), [[("l")], [("r")]])] false = .ok [(("t"), [some (0, 1)])]
    ∧ perMemberScores [embM1, embM2] ("t") [[("l")], [("r")]] false = [1, -1]
    ∧ sampleVariance [1, -1] = 2
    ∧ Real.sqrt 1 = 1
    ∧ Real.sqrt 2 ≠ 1 := by
  have hsx : sumsq ex = 1 := by norm_num [sumsq, ex]
  have hsy : sumsq ey = 1 := by norm_num [sumsq, ey]
  have hlt1 : embM1.lookup ("t") = some ex := by decide
  have hll1 : embM1.lookup ("l") = some ex := by decide
  have hlr1 : embM1.lookup ("r") = some ey := by decide
  have hlt2 : embM2.lookup ("t") = some ex := by decide
  have hll2 : embM2.lookup ("l") = some ey := by decide
  have hlr2 : embM2.lookup ("r") = some ex := by decide
  have hv1 : embM1.in_vocab ("t") = true := by decide
  have hv2 : embM2.in_vocab ("t") = true := by decide
  have hmc1 : memberBipolarClusters embM1 [[("l")], [("r")]] =
      some ([("l")], [("r")]) := by decide
  have hmc2 : memberBipolarClusters embM2 [[("l")], [("r")]] =
      some ([("l")], [("r")]) := by decide
  have hp1 : memberBipolarProjection embM1 ("t") ([("l")], [("r")]) false =
      .ok 1 := by
    simp [memberBipolarProjection, vector_eval hlt1 hsx, centroid_single hll1 hsx,
      centroid_single hlr1 hsy]
    norm_num [dot, vecSub, ex, ey]
  have hp2 : memberBipolarProjection embM2 ("t") ([("l")], [("r")]) false =
      .ok (-1) := by
    simp [memberBipolarProjection, vector_eval hlt2 hsx, centroid_single hll2 hsy,
      centroid_single hlr2 hsx]
    norm_num [dot, vecSub, ex, ey]
  have hcon1 : contributes embM1 ("t") [[("l")], [("r")]] = true := by decide
  have hcon2 : contributes embM2 ("t") [[("l")], [("r")]] = true := by decide
  have hu1l : usableCluster embM1 [("l")] = [("l")] := by decide
  have hu1r : usableCluster embM1 [("r")] = [("r")] := by decide
  have hu2l : usableCluster embM2 [("l")] = [("l")] := by decide
  have hu2r : usableCluster embM2 [("r")] = [("r")] := by decide
  have hval1 : memberProjectionVal embM1 ("t") ([("l")], [("r")]) false = 1 := by
    simp [memberProjectionVal, centroidD_single, vectorD_eval hlt1 hsx,
      vectorD_eval hll1 hsx, vectorD_eval hlr1 hsy]
    norm_num [dot, vecSub, ex, ey]
  have hval2 : memberProjectionVal embM2 ("t") ([("l")], [("r")]) false = -1 := by
    simp [memberProjectionVal, centroidD_single, vectorD_eval hlt2 hsx,
      vectorD_eval hll2 hsy, vectorD_eval hlr2 hsx]
    norm_num [dot, vecSub, ex, ey]
  refine ⟨?_, ?_, by norm_num [sampleVariance, rowMean], Real.sqrt_one, ?_⟩
  · simp [EmbeddingEnsemble.projections_to_bipolar_dimensions, processAllBipolar,
      processBipolarDim, bipolarArityCheck, bipolarTestLoop, dimCells,
      memberScores, hmc1, hmc2, hp1, hp2, hv1, hv2, npMeanStd, rowMean]
  · simp [perMemberScores, List.filter_cons, hcon1, hcon2, hu1l, hu1r, hu2l,
      hu2r, hval1, hval2]
  · rw [Ne, Real.sqrt_eq_one]
    norm_num

/-- C2 witness: the amended characterization at a concrete two-member
ensemble, one bipolar dimension and one unipolar dimension whose first
cluster word is a vocabulary character, so both paths have contributing
members. -/
theorem C2_witness :
    (∀ d ∈ [(("d"), [[("l")], [("r")]])], 2 ≤ d.2.length)
    ∧ (∀ d ∈ [(("royal"), [("t")])], d.2 ≠ ([] : List String))
    ∧ (EmbeddingEnsemble.projections_to_bipolar_dimensions ⟨[embM1, embM2]⟩
          [("t")] [(("d"), [[("l")], [("r")]])] false =
        .ok ([("t")].filterMap (fun t =>
          if [embM1, embM2].any (fun E => E.in_vocab t) then
            some (t, [(("d"), [[("l")], [("r")]])].map (fun d =>
              npMeanStd (perMemberScores [embM1, embM2] t d.2 false)))
          else none))
      ∧ EmbeddingEnsemble.projections_to_unipolar_dimensions ⟨[embM1, embM2]⟩
          [("t")] [(("royal"), [("t")])] true =
        .ok ([("t")].filterMap (fun t =>
          if [embM1, embM2].any (fun E => E.in_vocab t) then
            some (t, [(("royal"), [("t")])].map (fun d =>
              npMeanStd (perMemberUniScores [embM1, embM2] t d.2 true)))
          else none))
      ∧ (∀ x : ℚ, npMeanStd [x] = some (x, 0))) :=
  ⟨by decide, by decide,
    C2_mean_and_population_std ⟨[embM1, embM2]⟩ [("t")] [("t")]
      [(("d"), [[("l")], [("r")]])] [(("royal"), [("t")])] false true
      (by decide) (by decide)⟩
